import Mathlib

/-!
# Verification of the odesolvers ODE framework (src/odesolvers/ODE.py)

Shallow embedding of the configuration/validation subsystem, the outer time
loop, the grid validation, the multistep grid check, the implicit solvers'
inner nonlinear iteration, and the Runge-Kutta-Fehlberg step-size controller.

Conventions of the embedding:
* Python floats are modelled as exact rationals `ℚ` (reals `ℝ` where a real
  fourth root occurs, in the step-size controller).
* numpy arrays holding the solution are modelled as `List ℚ`; in-place
  assignment `u[i] = v` is `List.set` and slicing `u[:m]` is `List.take`.
* Fallible Python code returns `Except PyErr _` or a pair carrying the
  post-mutation state, since Python attribute mutations performed before an
  exception persist after it is raised.
-/

/-- Python exception kinds raised by the code under study. -/
inductive PyErr where
  | valueError : PyErr
  | typeError : PyErr
  | attributeError : PyErr
  deriving DecidableEq, Repr

/-- Python runtime values that can appear as parameter values in this module.
`func` is a callable identified by name (the framework never calls parameter
values during validation, it only checks callability).  Complex values are
omitted: no claim touches them. -/
inductive PyVal where
  | int : ℤ → PyVal
  | float : ℚ → PyVal
  | str : String → PyVal
  | bool : Bool → PyVal
  | func : String → PyVal
  deriving DecidableEq, Repr

namespace PyVal

/-- Python-2 `isinstance(value, (float, int, complex))` used by
`check_input_range`; `bool` is a subclass of `int` in Python. -/
def isNumeric : PyVal → Bool
  | .int _ => true
  | .float _ => true
  | .bool _ => true
  | _ => false

/-- Numeric value of a Python number (`True == 1`, `False == 0`). -/
def toQ : PyVal → ℚ
  | .int i => (i : ℚ)
  | .float q => q
  | .bool b => if b then 1 else 0
  | _ => 0

/-- Python-2 `==`: numbers compare by value across numeric types, strings by
content, callables by identity; mixed number/string equality is false. -/
def pyEq (a b : PyVal) : Bool :=
  match a, b with
  | .str s, .str t => s = t
  | .func s, .func t => s = t
  | a, b => a.isNumeric && b.isNumeric && decide (a.toQ = b.toQ)

/-- CPython-2 type rank for mixed-type ordering: all numeric types compare
numerically among themselves and *smaller* than `str` (type names `float`,
`int` sort before `str`); this is what `low <= value <= high` does when a
two-element enumerated range of strings is (mis)used as an interval. -/
def typeRank : PyVal → Nat
  | .int _ => 0
  | .float _ => 0
  | .bool _ => 0
  | .func _ => 1
  | .str _ => 2

/-- CPython-2 `<=` on the fragment we need: numeric-vs-numeric by value,
otherwise by type rank, strings lexicographically. -/
def pyLe (a b : PyVal) : Bool :=
  if a.isNumeric && b.isNumeric then decide (a.toQ ≤ b.toQ)
  else if a.typeRank ≠ b.typeRank then decide (a.typeRank < b.typeRank)
  else match a, b with
       | .str s, .str t => decide (s ≤ t)
       | _, _ => true

end PyVal

/-- Declared Python types appearing in the `_parameters` registry entries we
model (`type=` field of a parameter spec). -/
inductive PyType where
  | tInt : PyType
  | tFloat : PyType
  | tStr : PyType
  | tBool : PyType
  | tCallable : PyType
  deriving DecidableEq, Repr

/-- `isinstance(value, tp)` for a single declared type (Python-2: `bool` is an
`int`; an `int` is not a `float`). -/
def pyIsinstance : PyVal → PyType → Bool
  | .int _, .tInt => true
  | .bool _, .tInt => true
  | .bool _, .tBool => true
  | .float _, .tFloat => true
  | .str _, .tStr => true
  | _, _ => false

/-- Python-2 `callable(value)`. -/
def pyCallable : PyVal → Bool
  | .func _ => true
  | _ => false

/-- One entry of the `_parameters` registry: declared type(s), optional legal
range (interval or enumerated set, stored as the raw Python list), optional
extra validator.  The extra validator returns `none` when the Python check
function itself raises (check_extra catches that and turns it into
ValueError). -/
structure ParamSpec where
  ptypes : List PyType
  vrange : Option (List PyVal) := none
  extra_check : Option (PyVal → Option Bool) := none
  deriving Inhabited

/-- The per-instance solver configuration: the registry subset `_parameters`
and the currently assigned attribute values (`self.<name>`).  `check_conditional_parameters`
is omitted from the model: it runs only after the commit and only inspects
parameters carrying a condition-list property, which none of the registry
entries modelled here do. -/
structure Config where
  params : List (String × ParamSpec)
  attrs : List (String × PyVal)
  deriving Inhabited

namespace Config

/-- Lookup of a parameter spec by name (`name in self._parameters`). -/
def findSpec (cfg : Config) (name : String) : Option ParamSpec :=
  (cfg.params.find? (fun p => p.1 = name)).map Prod.snd

end Config

/-- Association-list read: `getattr(self, name)` on the assigned values. -/
def getAttr (attrs : List (String × PyVal)) (name : String) : Option PyVal :=
  (attrs.find? (fun p => p.1 = name)).map Prod.snd

/-- `setattr(self, name, v)`: overwrite or append. -/
def setAttr (attrs : List (String × PyVal)) (name : String) (v : PyVal) :
    List (String × PyVal) :=
  if (attrs.find? (fun p => p.1 = name)).isSome then
    attrs.map (fun p => if p.1 = name then (name, v) else p)
  else attrs ++ [(name, v)]

/-- `del self.__dict__[name]`. -/
def delAttr (attrs : List (String × PyVal)) (name : String) :
    List (String × PyVal) :=
  attrs.filter (fun p => p.1 ≠ name)

/-- First phase of `Solver.set` (ODE.py lines 1050-1062), walking the supplied
keyword arguments: an unregistered name raises ValueError in strict mode and
is silently dropped otherwise; a `None` value is dropped from the batch and
additionally *deletes* any existing attribute of that name, before any
type/range checking has run.  Returns the surviving (name, value) pairs and
the (possibly already mutated) attribute state; on a strict-mode error the
mutations made so far persist. -/
def set_check_names (strict : Bool) (cfg : Config) :
    List (String × Option PyVal) → List (String × PyVal) →
    Except (PyErr × List (String × PyVal))
           (List (String × PyVal) × List (String × PyVal))
  | [], attrs => .ok ([], attrs)
  | (name, v) :: rest, attrs =>
    if (cfg.findSpec name).isSome then
      match v with
      | none => set_check_names strict cfg rest (delAttr attrs name)
      | some v =>
        match set_check_names strict cfg rest attrs with
        | .ok (kept, attrs') => .ok ((name, v) :: kept, attrs')
        | .error e => .error e
    else
      if strict then .error (.valueError, attrs)
      else set_check_names strict cfg rest attrs

/-- `Solver.check_input_types` (ODE.py lines 1077-1104): each supplied value
must satisfy `isinstance` for one of the declared types, where a declared
`callable` is checked by `callable(value)` instead; otherwise TypeError. -/
def check_input_types (cfg : Config) (kwargs : List (String × PyVal)) :
    Except PyErr Unit :=
  if kwargs.all (fun p =>
      match cfg.findSpec p.1 with
      | some spec => spec.ptypes.any (fun tp =>
          match tp with
          | .tCallable => pyCallable p.2
          | _ => pyIsinstance p.2 tp)
      | none => true) then
    .ok ()
  else .error .typeError

/-- Range test for one numeric value (ODE.py lines 1119-1130): a two-element
range is read as an interval `low <= value <= high or low >= value >= high`
(with CPython-2 mixed-type ordering when the endpoints are not numbers); any
other length means membership in an enumerated list of legal values. -/
def rangeListCheck (ranges : List PyVal) (value : PyVal) : Bool :=
  if ranges.length = 2 then
    let low := ranges.getD 0 (.int 0)
    let high := ranges.getD 1 (.int 0)
    (low.pyLe value && value.pyLe high) || (value.pyLe low && high.pyLe value)
  else ranges.any (fun r => value.pyEq r)

/-- `Solver.check_input_range` (ODE.py lines 1107-1131).  Note the guard
`isinstance(value, (float, int, complex))`: only *numeric* values are
range-checked at all; any non-numeric value skips its range entirely. -/
def check_input_range (cfg : Config) (kwargs : List (String × PyVal)) :
    Except PyErr Unit :=
  if kwargs.all (fun p =>
      match cfg.findSpec p.1 with
      | some spec =>
        match spec.vrange with
        | some ranges => if p.2.isNumeric then rangeListCheck ranges p.2 else true
        | none => true
      | none => true) then
    .ok ()
  else .error .valueError

/-- `Solver.check_extra` (ODE.py lines 1133-1158): a specified extra check
function must run without exception and return a truthy value, else
ValueError. -/
def check_extra (cfg : Config) (kwargs : List (String × PyVal)) :
    Except PyErr Unit :=
  if kwargs.all (fun p =>
      match cfg.findSpec p.1 with
      | some spec =>
        match spec.extra_check with
        | some chk => (chk p.2).getD false
        | none => true
      | none => true) then
    .ok ()
  else .error .valueError

/-- Commit loop of `Solver.set` (ODE.py lines 1071-1072): assign every
surviving keyword argument as an attribute. -/
def commitAttrs (attrs : List (String × PyVal)) :
    List (String × PyVal) → List (String × PyVal)
  | [] => attrs
  | (name, v) :: rest => commitAttrs (setAttr attrs name v) rest

/-- `Solver.set` (ODE.py lines 1028-1075), without the Fortran-string
compilation step (a no-op for every batch whose values are not strings bound
to callable-typed parameters).  Returns the raised exception (if any) together
with the final attribute state: Python mutations performed before a raise
persist, so a failed call can still have changed the configuration. -/
def solver_set (strict : Bool) (cfg : Config)
    (batch : List (String × Option PyVal)) : Option PyErr × Config :=
  match set_check_names strict cfg batch cfg.attrs with
  | .error (e, attrs') => (some e, { cfg with attrs := attrs' })
  | .ok (kwargs, attrs1) =>
    match check_input_types cfg kwargs with
    | .error e => (some e, { cfg with attrs := attrs1 })
    | .ok _ =>
      match check_input_range cfg kwargs with
      | .error e => (some e, { cfg with attrs := attrs1 })
      | .ok _ =>
        match check_extra cfg kwargs with
        | .error e => (some e, { cfg with attrs := attrs1 })
        | .ok _ => (none, { cfg with attrs := commitAttrs attrs1 kwargs })

/-- Registry entry `_parameters['eps_iter']` (ODE.py lines 416-419). -/
def eps_iterSpec : ParamSpec := { ptypes := [.tFloat] }

/-- Registry entry `_parameters['max_iter']` (ODE.py lines 421-424). -/
def max_iterSpec : ParamSpec := { ptypes := [.tInt] }

/-- Registry entry `_parameters['ode_method']` (ODE.py lines 544-548):
type `str`, range `('adams', 'bdf')`. -/
def ode_methodSpec : ParamSpec :=
  { ptypes := [.tStr], vrange := some [.str "adams", .str "bdf"] }

/-- Registry entry `_parameters['nonlinear_solver']` (ODE.py lines 410-414):
type `str`, range `('Newton', 'Picard')`. -/
def nonlinear_solverSpec : ParamSpec :=
  { ptypes := [.tStr], vrange := some [.str "Newton", .str "Picard"] }

/-- Registry entry `_parameters['theta']` (ODE.py lines 434-438):
type `(int, float)`, range `[0, 1]`. -/
def thetaSpec : ParamSpec :=
  { ptypes := [.tInt, .tFloat], vrange := some [.int 0, .int 1] }

/-- Boolean adjacent-pairs check: `chainB R [x0, x1, ...]` holds when
`R x_i x_(i+1)` for every adjacent pair.  Executable stand-in for
`List.Chain'`. -/
def chainB (R : ℚ → ℚ → Bool) : List ℚ → Bool
  | [] => true
  | [_] => true
  | a :: b :: l => R a b && chainB R (b :: l)

/-- Spec-side notion for claim C3, from the spec's words: a strictly monotonic
(ascending or descending) sequence of at least 2 points. -/
def strictlyMonotonic (t : List ℚ) : Bool :=
  decide (2 ≤ t.length) && (chainB (fun a b => decide (a < b)) t ||
                            chainB (fun a b => decide (a > b)) t)

/-- Python-2 `sorted(l)` on rationals (stable ascending sort). -/
def pySortAsc (l : List ℚ) : List ℚ :=
  l.mergeSort (fun a b => decide (a ≤ b))

/-- Python-2 `sorted(l, reverse=True)` on rationals (stable descending
sort). -/
def pySortDesc (l : List ℚ) : List ℚ :=
  l.mergeSort (fun a b => decide (b ≤ a))

/-- The time-grid portion of `Solver.validate_data` (ODE.py lines 1375-1380):
sort the grid ascending, or descending when `t[0] > t[-1]`, and raise
ValueError when the grid differs from its sorted copy.  (The preceding
number-type check and the trailing required-parameter check are orthogonal to
the grid and are not modelled; the grid entries here are rationals by
construction.) -/
def solver_validate_data (t : List ℚ) : Except PyErr Unit :=
  let rev := decide (t.head! > t.getLast!)
  let t_sorted := if rev then pySortDesc t else pySortAsc t
  if t = t_sorted then .ok () else .error .valueError

/-- numpy `linspace(a, b, n)`: `n` evenly spaced points from `a` to `b`
inclusive (exact in `ℚ`). -/
def np_linspace (a b : ℚ) : Nat → List ℚ
  | 0 => []
  | 1 => [a]
  | n + 2 => (List.range (n + 2)).map (fun i => a + (b - a) * i / (n + 1))

/-- numpy `allclose(x, y)` with the default tolerances
`rtol=1e-5, atol=1e-8`: elementwise `|x - y| <= atol + rtol*|y|`. -/
def np_allclose (x y : List ℚ) : Bool :=
  decide (x.length = y.length) &&
    (x.zip y).all (fun p =>
      decide (|p.1 - p.2| ≤ 1 / 100000000 + 1 / 100000 * |p.2|))

/-- `Solver.constant_time_step` (ODE.py lines 1349-1352):
`np.allclose(t, linspace(t[0], t[-1], len(t)))`. -/
def constant_time_step (t : List ℚ) : Bool :=
  np_allclose t (np_linspace t.head! t.getLast! t.length)

/-- `AdamsBashforth2.validate_data` (ODE.py lines 1841-1846), identical in
AdamsBashforth3/4 and AdamsBashMoulton2/3.  On a non-uniform grid the code
executes `print '%s must have constant time step' % self.__name__`; the
attribute lookup `self.__name__` fails on an instance (only the class object
carries `__name__`), so AttributeError is raised before anything is printed
and the `return False` is never reached. -/
def adamsBashforth2_validate_data (t : List ℚ) : Except PyErr Bool :=
  if constant_time_step t then .ok true else .error .attributeError

/-- Initial conditions accepted by `Solver.set_initial_condition`: a Python
scalar (int or float) or a sequence. -/
inductive PyU0 where
  | scalarInt : ℤ → PyU0
  | scalarFloat : ℚ → PyU0
  | vec : List ℚ → PyU0
  deriving DecidableEq, Repr

/-- `Solver.set_initial_condition` (ODE.py lines 1244-1261): a sequence gives
`neq = len(U0)` and is stored as an array; a scalar gives `neq = 1`, with an
integer converted to float first.  Returns `(neq, stored U0)`. -/
def solver_set_initial_condition : PyU0 → Nat × PyU0
  | .scalarInt i => (1, .scalarFloat (i : ℚ))
  | .scalarFloat q => (1, .scalarFloat q)
  | .vec l => (l.length, .vec l)

/-- Solution-buffer initialization in `Solver.set_internal_parameters`
(ODE.py lines 1337-1344), scalar case: `u = zeros(N+1); u[0] = U0`. -/
def solver_u_init (tlen : Nat) (U0 : ℚ) : List ℚ :=
  (List.replicate tlen 0).set 0 U0

/-- The time loop of `Solver.solve` (ODE.py lines 1296-1306) for a scalar
problem, abstracted over the step advancer `adv` (the subclass `advance`
method, reading the buffers and the step index) and the termination predicate.
`fuel` counts the remaining intervals, `n` is the current step index:
each iteration writes `u[n+1] = adv u t n`, then checks
`terminate(u, t, n+1)` and on success truncates both arrays to `n+2` entries
and stops. -/
def timeLoop (adv : List ℚ → List ℚ → Nat → ℚ)
    (term : List ℚ → List ℚ → Nat → Bool) (t : List ℚ) :
    Nat → Nat → List ℚ → List ℚ × List ℚ
  | 0, _, u => (u, t)
  | fuel + 1, n, u =>
    let u' := u.set (n + 1) (adv u t n)
    if term u' t (n + 1) then (u'.take (n + 2), t.take (n + 2))
    else timeLoop adv term t fuel (n + 1) u'

/-- `Solver.solve` (ODE.py lines 1289-1306) after grid validation: allocate
the buffer with `u[0] = U0` and run the time loop over the `len(t) - 1`
intervals. -/
def solver_solve (adv : List ℚ → List ℚ → Nat → ℚ)
    (term : List ℚ → List ℚ → Nat → Bool) (t : List ℚ) (U0 : ℚ) :
    List ℚ × List ℚ :=
  timeLoop adv term t (t.length - 1) 0 (solver_u_init t.length U0)

/-- The successive solution buffers of the time loop: `uSeq k` is the buffer
after `k` steps have been advanced (no termination). -/
def uSeq (adv : List ℚ → List ℚ → Nat → ℚ) (t : List ℚ) (U0 : ℚ) :
    Nat → List ℚ
  | 0 => solver_u_init t.length U0
  | k + 1 => (uSeq adv t U0 k).set (k + 1) (adv (uSeq adv t U0 k) t k)

/-- Inner nonlinear iteration of `SolverImplicit.advance` (ODE.py lines
2216-2232), scalar case, abstracted over `step`, the selected branch body
mapping the current trial guess to the raw new value `unew` (Picard update,
Newton correction `u - F(u)/J(u)`, or the fixed-point formula).  State is the
current trial value and the error carried from the previous iteration; each
pass computes `unew`, the update error `|unew - u|`, and relaxes against the
*previous time-step value* `un`: `u := r*unew + (1-r)*un`.  `fuel` is the
number of remaining iterations (`max_iter` at entry, matching
`while i <= max_iter`). -/
def implicit_loop (step : ℚ → ℚ) (un r eps : ℚ) :
    Nat → ℚ → ℚ → ℚ
  | 0, u, _ => u
  | fuel + 1, u, err =>
    if err > eps then
      implicit_loop step un r eps fuel (r * step u + (1 - r) * un)
        |step u - u|
    else u

/-- `SolverImplicit.advance` (ODE.py lines 2209-2233), scalar case: the
initial guess is the forward-Euler predictor `un + dt*f(un, tn)`, the initial
error is `1E+30`, and the loop runs for at most `max_iter` iterations. -/
def solverImplicit_advance (step : ℚ → ℚ) (f : ℚ → ℚ → ℚ)
    (un tn tnew r eps : ℚ) (max_iter : Nat) : ℚ :=
  implicit_loop step un r eps max_iter (un + (tnew - tn) * f un tn)
    ((10 : ℚ) ^ (30 : Nat))

/-- The iteration of claim C5 as the spec words it: the relaxation blend is
taken with the guess held before this iteration (the previous trial iterate),
`u := r*unew + (1-r)*u_old`.  Written from the spec for comparison with
`implicit_loop`, which blends with `un` instead. -/
def implicit_loop_specClaim (step : ℚ → ℚ) (r eps : ℚ) :
    Nat → ℚ → ℚ → ℚ
  | 0, u, _ => u
  | fuel + 1, u, err =>
    if err > eps then
      implicit_loop_specClaim step r eps fuel (r * step u + (1 - r) * u)
        |step u - u|
    else u

/-- Claim C5's reading of `SolverImplicit.advance`, from the spec's words. -/
def solverImplicit_advance_specClaim (step : ℚ → ℚ) (f : ℚ → ℚ → ℚ)
    (un tn tnew r eps : ℚ) (max_iter : Nat) : ℚ :=
  implicit_loop_specClaim step r eps max_iter (un + (tnew - tn) * f un tn)
    ((10 : ℚ) ^ (30 : Nat))

/-- The sequence of trial iterates produced by the code's loop when no
stopping test fires: start from the predictor `u0` and blend each raw update
with the previous time-step value `un`. -/
def implicit_iterSeq (step : ℚ → ℚ) (un r u0 : ℚ) : Nat → ℚ
  | 0 => u0
  | k + 1 => r * step (implicit_iterSeq step un r u0 k) + (1 - r) * un

/-- `BackwardEuler.Picard_update` (ODE.py lines 2242-2245), scalar case. -/
def backwardEuler_Picard_update (f : ℚ → ℚ → ℚ) (un tn tnp1 ukp1 : ℚ) : ℚ :=
  un + (tnp1 - tn) * f ukp1 tnp1

/-- Residual of `BackwardEuler.Newton_system` (ODE.py lines 2247-2252),
scalar case: `F = ukp1 - (u[n] + dt*f(ukp1, t[n+1]))`. -/
def backwardEuler_Newton_F (f : ℚ → ℚ → ℚ) (un tn tnp1 ukp1 : ℚ) : ℚ :=
  ukp1 - (un + (tnp1 - tn) * f ukp1 tnp1)

/-- `MidpointImplicit.Picard_update` (ODE.py lines 2315-2318), scalar case:
the scheme right-hand side `u[n] + dt*f((ukp1 + u[n])/2, t[n] + dt/2)`, as
also stated in the class docstring. -/
def midpointImplicit_Picard_update (f : ℚ → ℚ → ℚ)
    (un tn tnp1 ukp1 : ℚ) : ℚ :=
  un + (tnp1 - tn) * f ((ukp1 + un) / 2) (tn + (tnp1 - tn) / 2)

/-- Residual of `MidpointImplicit.Newton_system` (ODE.py lines 2320-2325),
scalar case, transcribed with the source's parenthesization:
`F = ukp1 -  u[n] + dt*f((ukp1 + u[n])/2., t[n] + dt/2.)` — note the `+`
binds the `dt*f(...)` term positively, unlike BackwardEuler's
`ukp1 - (u[n] + dt*f(...))`. -/
def midpointImplicit_Newton_F (f : ℚ → ℚ → ℚ) (un tn tnp1 ukp1 : ℚ) : ℚ :=
  ukp1 - un + (tnp1 - tn) * f ((ukp1 + un) / 2) (tn + (tnp1 - tn) / 2)

/-- Middle element of the sorted triple `[x, y, z]` — the helper `middle`
inside `RKFehlberg.advance` (ODE.py lines 2432-2434), written with max/min. -/
def middle {α : Type*} [LinearOrder α] (x y z : α) : α :=
  max (min x y) (min (max x y) z)

/-- Step-size update at the end of each internal substep of
`RKFehlberg.advance` (ODE.py lines 2495-2517), scalar case, over `ℝ` because
of the fourth root: tolerance `rtol*|u_new| + atol`; a zero error is floored
to `1e-16`; the rescale factor is `(tol/(2*error))**0.25`, clamped by
`middle` into `[0.1, 4.0]`; the rescaled step is clamped by `middle` into
`[min_step, max_step]` and finally capped at `remaining = t_next - twork[-1]`
so the next substep does not pass the caller's target time.  The update is
performed whether or not the substep was accepted. -/
noncomputable def rkf_new_h (rtol atol u_new error h min_step max_step
    remaining : ℝ) : ℝ :=
  let tol := rtol * |u_new| + atol
  let err := if error = 0 then 1 / 10 ^ 16 else error
  let s := (tol / (2 * err)) ^ ((1 : ℝ) / 4)
  let s1 := middle s (1 / 10) 4
  let h1 := middle (h * s1) min_step max_step
  min h1 remaining

/-- Claim C7's reading of the update, from the spec's words: identical except
that the rescale factor is `(tolerance/error)**0.25`, without the factor 2 in
the denominator. -/
noncomputable def rkf_new_h_specClaim (rtol atol u_new error h min_step
    max_step remaining : ℝ) : ℝ :=
  let tol := rtol * |u_new| + atol
  let err := if error = 0 then 1 / 10 ^ 16 else error
  let s := (tol / err) ^ ((1 : ℝ) / 4)
  let s1 := middle s (1 / 10) 4
  let h1 := middle (h * s1) min_step max_step
  min h1 remaining

/-- Adjacent spacings `t[1:] - t[:-1]` of a caller grid. -/
def gridSteps (t : List ℚ) : List ℚ :=
  (t.zip t.tail).map (fun p => p.2 - p.1)

/-- `Adaptive.set_internal_parameters` (ODE.py lines 2335-2349): unsupplied
`first_step` defaults to the caller's first interval, `min_step` to 1/10 of
the smallest caller spacing, `max_step` to 10 times the largest.  Returns the
resulting `(first_step, min_step, max_step)`. -/
def adaptive_set_internal_parameters (t : List ℚ)
    (first_step min_step max_step : Option ℚ) : ℚ × ℚ × ℚ :=
  (first_step.getD (t.getD 1 0 - t.getD 0 0),
   min_step.getD (1 / 10 * ((gridSteps t).min?.getD 0)),
   max_step.getD (10 * ((gridSteps t).max?.getD 0)))

/-- `RKFehlberg.set_internal_parameters` (ODE.py lines 2428-2429): it
overrides `Adaptive.set_internal_parameters` and calls
`Solver.set_internal_parameters` directly, so none of the Adaptive defaults
are applied; unsupplied step parameters remain unset. -/
def rkfehlberg_set_internal_parameters
    (first_step min_step max_step : Option ℚ) :
    Option ℚ × Option ℚ × Option ℚ :=
  (first_step, min_step, max_step)

/-- Per-interval defaulting at the top of `RKFehlberg.advance` (ODE.py lines
2439-2445): with `dt = t[n+1] - t[n]`, unset parameters fall back via
`getattr` to `min_step = dt/1000`, `max_step = dt`, `h = first_step = dt`.
Returns `(min_step, max_step, h)`. -/
def rkfehlberg_step_params (dt : ℚ)
    (first_step min_step max_step : Option ℚ) : ℚ × ℚ × ℚ :=
  (min_step.getD (dt / 1000), max_step.getD dt, first_step.getD dt)

section Lemmas

/-- The middle of a sorted triple lies between the outer bounds: clamping
semantics of the `middle` helper. -/
theorem middle_bounds {α : Type*} [LinearOrder α] (x y z : α) (h : y ≤ z) :
    y ≤ middle x y z ∧ middle x y z ≤ z := by
  constructor
  · exact le_max_of_le_right (le_min (le_max_right x y) h)
  · exact max_le (le_trans (min_le_right x y) h) (min_le_right _ z)

/-- `middle` is the identity on values already inside the bounds. -/
theorem middle_of_between {α : Type*} [LinearOrder α] {x y z : α}
    (h1 : y ≤ x) (h2 : x ≤ z) : middle x y z = x := by
  simp [middle, min_eq_right h1, max_eq_left h1, min_eq_left h2,
        max_eq_right h1]

/-- Attribute state carried by a `set_check_names` outcome. -/
def scnAttrs (r : Except (PyErr × List (String × PyVal))
    (List (String × PyVal) × List (String × PyVal))) :
    List (String × PyVal) :=
  match r with
  | .error (_, a) => a
  | .ok (_, a) => a

/-- `set_check_names` leaves the attribute state untouched whenever the batch
carries no `None` sentinel, in both the ok and the error outcome. -/
theorem set_check_names_attrs_of_no_none (strict : Bool) (cfg : Config) :
    ∀ (batch : List (String × Option PyVal)) (attrs : List (String × PyVal)),
      (∀ p ∈ batch, p.2 ≠ none) →
      scnAttrs (set_check_names strict cfg batch attrs) = attrs := by
  intro batch
  induction batch with
  | nil =>
    intro attrs _
    simp [set_check_names, scnAttrs]
  | cons p rest ih =>
    intro attrs hnone
    obtain ⟨name, v⟩ := p
    have hv : v ≠ none := hnone (name, v) (List.mem_cons_self _ _)
    obtain ⟨w, rfl⟩ := Option.ne_none_iff_exists'.mp hv
    have hrest := ih attrs (fun q hq => hnone q (List.mem_cons_of_mem _ hq))
    cases hspec : cfg.findSpec name with
    | some spec =>
      cases hmatch : set_check_names strict cfg rest attrs with
      | ok r =>
        obtain ⟨kept', attrs''⟩ := r
        have : attrs'' = attrs := by
          have := hrest
          rw [hmatch] at this
          simpa [scnAttrs] using this
        simp [set_check_names, hspec, hmatch, scnAttrs, this]
      | error er =>
        obtain ⟨e', attrs''⟩ := er
        have : attrs'' = attrs := by
          have := hrest
          rw [hmatch] at this
          simpa [scnAttrs] using this
        simp [set_check_names, hspec, hmatch, scnAttrs, this]
    | none =>
      cases strict with
      | true => simp [set_check_names, hspec, scnAttrs]
      | false =>
        have := hrest
        simpa [set_check_names, hspec, scnAttrs] using this

end Lemmas

/-- Claim C1 (amended).  `Solver.set` is validate-then-commit for every batch
that carries no `None` sentinel: if any supplied value fails the
name/type/range/extra checks, the assigned configuration after the failed
call equals the configuration before it.  (Batches containing `None` are
excluded: their attribute deletions happen before validation, see the
counterexample.) -/
theorem solver_set_atomic_without_none (strict : Bool) (cfg : Config)
    (batch : List (String × Option PyVal))
    (hb : ∀ p ∈ batch, p.2 ≠ none) (e : PyErr)
    (he : (solver_set strict cfg batch).1 = some e) :
    (solver_set strict cfg batch).2.attrs = cfg.attrs := by
  have hlem := set_check_names_attrs_of_no_none strict cfg batch cfg.attrs hb
  unfold solver_set at he ⊢
  cases h1 : set_check_names strict cfg batch cfg.attrs with
  | error er =>
    obtain ⟨e', attrs'⟩ := er
    rw [h1] at hlem
    simp only [scnAttrs] at hlem
    simp [h1, hlem]
  | ok r =>
    obtain ⟨kwargs, attrs1⟩ := r
    rw [h1] at hlem
    simp only [scnAttrs] at hlem
    simp only [h1] at he ⊢
    cases h2 : check_input_types cfg kwargs with
    | error e2 => simp only [h2, hlem]
    | ok u =>
      cases u
      simp only [h2] at he ⊢
      cases h3 : check_input_range cfg kwargs with
      | error e3 => simp only [h3, hlem]
      | ok u =>
        cases u
        simp only [h3] at he ⊢
        cases h4 : check_extra cfg kwargs with
        | error e4 => simp only [h4, hlem]
        | ok u =>
          cases u
          simp [h4] at he

/-- Witness for C1: a batch holding one ill-typed value (a string supplied
for the int-typed `max_iter`) fails with TypeError and leaves the assigned
configuration exactly as it was. -/
theorem solver_set_atomic_without_none_witness :
    (∀ p ∈ ([("max_iter", some (PyVal.str "x"))] :
        List (String × Option PyVal)), p.2 ≠ none) ∧
    (solver_set false
      { params := [("max_iter", max_iterSpec)],
        attrs := [("max_iter", PyVal.int 25)] }
      [("max_iter", some (PyVal.str "x"))]).1 = some PyErr.typeError ∧
    (solver_set false
      { params := [("max_iter", max_iterSpec)],
        attrs := [("max_iter", PyVal.int 25)] }
      [("max_iter", some (PyVal.str "x"))]).2.attrs =
      [("max_iter", PyVal.int 25)] :=
  ⟨by decide, by decide,
   solver_set_atomic_without_none false
     { params := [("max_iter", max_iterSpec)],
       attrs := [("max_iter", PyVal.int 25)] }
     [("max_iter", some (PyVal.str "x"))] (by decide) PyErr.typeError
     (by decide)⟩

/-- Counterexample to C1 as stated: a batch mixing the `None` sentinel with an
ill-typed value.  The call fails (TypeError on `max_iter`), yet the previously
assigned `eps_iter` has been deleted: the configuration after the failed call
differs from the configuration before it. -/
theorem solver_set_none_mutates_on_failure :
    (solver_set false
      { params := [("eps_iter", eps_iterSpec), ("max_iter", max_iterSpec)],
        attrs := [("eps_iter", PyVal.float (1 / 100))] }
      [("eps_iter", none), ("max_iter", some (PyVal.str "x"))]).1 =
        some PyErr.typeError ∧
    (solver_set false
      { params := [("eps_iter", eps_iterSpec), ("max_iter", max_iterSpec)],
        attrs := [("eps_iter", PyVal.float (1 / 100))] }
      [("eps_iter", none), ("max_iter", some (PyVal.str "x"))]).2.attrs = [] ∧
    ([("eps_iter", PyVal.float (1 / 100))] : List (String × PyVal)) ≠ [] := by
  refine ⟨by decide, by decide, by decide⟩

/-- Claim C9 (amended).  `Solver.check_input_range` applies range checks only
to numeric values (the `isinstance(value, (float,int,complex))` guard): a
batch of non-numeric values always passes regardless of any declared range,
while a numeric value against an enumerated range (any range whose length is
not 2) is accepted exactly when it is a member of the set. -/
theorem check_input_range_numeric_only :
    (∀ (cfg : Config) (kwargs : List (String × PyVal)),
        (∀ p ∈ kwargs, p.2.isNumeric = false) →
        check_input_range cfg kwargs = .ok ()) ∧
    (∀ (name : String) (spec : ParamSpec) (v : PyVal) (rs : List PyVal),
        spec.vrange = some rs → rs.length ≠ 2 → v.isNumeric = true →
        (check_input_range { params := [(name, spec)], attrs := [] }
            [(name, v)] = .ok () ↔ rs.any (fun r => v.pyEq r) = true)) := by
  constructor
  · intro cfg kwargs hnum
    unfold check_input_range
    rw [if_pos]
    apply List.all_eq_true.mpr
    intro p hp
    cases hspec : cfg.findSpec p.1 with
    | none => simp
    | some spec =>
      cases hr : spec.vrange with
      | none => simp [hr]
      | some rs => simp [hr, hnum p hp]
  · intro name spec v rs hr hlen hnum
    have hfind : (Config.mk [(name, spec)] []).findSpec name = some spec := by
      simp [Config.findSpec, List.find?]
    unfold check_input_range
    simp only [List.all_cons, List.all_nil, Bool.and_true, hfind, hr, hnum,
      if_true]
    rw [rangeListCheck, if_neg hlen]
    cases h : rs.any (fun r => v.pyEq r) <;> simp [h]

/-- Witness for C9: `ode_method` declares the enumerated legal set
`('adams', 'bdf')`, yet the non-numeric value `'xxx'` passes the range check
untouched (first conjunct of the theorem, applied to a concrete
configuration). -/
theorem check_input_range_numeric_only_witness :
    check_input_range
      { params := [("ode_method", ode_methodSpec)], attrs := [] }
      [("ode_method", PyVal.str "xxx")] = .ok () :=
  check_input_range_numeric_only.1
    { params := [("ode_method", ode_methodSpec)], attrs := [] }
    [("ode_method", PyVal.str "xxx")] (by decide)

/-- Counterexample to C9 as stated: for the registered parameter `ode_method`
whose legal range is the enumerated set `('adams', 'bdf')`, a full
`Solver.set` call with the non-member string value `'xxx'` raises no error at
all and commits the value. -/
theorem solver_set_accepts_string_outside_range :
    (solver_set false
      { params := [("ode_method", ode_methodSpec)], attrs := [] }
      [("ode_method", some (PyVal.str "xxx"))]).1 = none ∧
    (solver_set false
      { params := [("ode_method", ode_methodSpec)], attrs := [] }
      [("ode_method", some (PyVal.str "xxx"))]).2.attrs =
      [("ode_method", PyVal.str "xxx")] ∧
    ([PyVal.str "adams", PyVal.str "bdf"].any
      (fun r => (PyVal.str "xxx").pyEq r)) = false := by
  refine ⟨by decide, by decide, by decide⟩

/-- Claim C10.  `Solver.set_initial_condition` maps a scalar to `neq = 1`
(an integer being converted to float first) and a sequence to
`neq = len(U0)` stored as an array, and the stored value is what the solution
buffer's entry 0 is initialized from in `set_internal_parameters`. -/
theorem set_initial_condition_establishes_neq_and_U0 :
    ∀ (i : ℤ) (q : ℚ) (l : List ℚ) (n : Nat) (U0 : ℚ),
      solver_set_initial_condition (.scalarInt i) = (1, .scalarFloat (i : ℚ)) ∧
      solver_set_initial_condition (.scalarFloat q) = (1, .scalarFloat q) ∧
      solver_set_initial_condition (.vec l) = (l.length, .vec l) ∧
      (solver_u_init (n + 1) U0)[0]? = some U0 := by
  intro i q l n U0
  refine ⟨rfl, rfl, rfl, ?_⟩
  unfold solver_u_init
  rw [List.getElem?_set_self]
  simp

/-- Claim C6 (code bug).  At the concrete failing input `f ≡ 1`, `u[n] = 0`,
`t[n] = 0`, `t[n+1] = 1`, trial guess `ukp1 = 0`:
`MidpointImplicit.Newton_system` returns the residual `+1` where the scheme
documented by the class docstring and implemented by its own `Picard_update`
requires `ukp1 - (u[n] + dt*f(...)) = -1` — the `dt*f` term enters with the
wrong sign (`ukp1 - u[n] + dt*f(...)` lacks the parentheses BackwardEuler
has).  BackwardEuler itself satisfies the claimed shape exactly. -/
theorem midpointImplicit_Newton_residual_sign :
    midpointImplicit_Newton_F (fun _ _ => 1) 0 0 1 0 = 1 ∧
    (0 : ℚ) - midpointImplicit_Picard_update (fun _ _ => 1) 0 0 1 0 = -1 ∧
    (1 : ℚ) ≠ -1 ∧
    ∀ (f : ℚ → ℚ → ℚ) (un tn tnp1 ukp1 : ℚ),
      backwardEuler_Newton_F f un tn tnp1 ukp1 =
        ukp1 - backwardEuler_Picard_update f un tn tnp1 ukp1 := by
  refine ⟨?_, ?_, by norm_num, fun f un tn tnp1 ukp1 => rfl⟩
  · norm_num [midpointImplicit_Newton_F]
  · norm_num [midpointImplicit_Picard_update]

/-- Claim C4 (code bug).  On the concrete non-uniform grid `[0, 1, 3]`,
`AdamsBashforth2.validate_data` does not report-and-return-False: the
instance attribute lookup `self.__name__` in its print statement fails, so
the call raises AttributeError. -/
theorem adamsBashforth2_validate_data_raises :
    constant_time_step [0, 1, 3] = false ∧
    adamsBashforth2_validate_data [0, 1, 3] =
      Except.error PyErr.attributeError := by
  have h : constant_time_step [0, 1, 3] = false := by
    show np_allclose [0, 1, 3] (np_linspace 0 3 3) = false
    norm_num [np_allclose, np_linspace, List.range_succ, abs_of_pos]
  exact ⟨h, by simp [adamsBashforth2_validate_data, h]⟩

/-- Claim C8 (amended).  The Adaptive superclass computes the claimed defaults
(first interval, 1/10 of the smallest spacing, 10 times the largest), but
RKFehlberg overrides `set_internal_parameters` so those defaults are never
applied to the embedded-pair controller: inside each `advance` call the
unsupplied parameters fall back per interval to `min_step = dt/1000`,
`max_step = dt`, `h = dt`; the `middle` clamp then keeps the rescaled step
inside `[min_step, max_step]`. -/
theorem rkfehlberg_step_size_defaults (dt h s : ℚ)
    (fs ms xs : Option ℚ)
    (hb : ms.getD (dt / 1000) ≤ xs.getD dt) :
    (rkfehlberg_step_params dt
        (rkfehlberg_set_internal_parameters fs ms xs).1
        (rkfehlberg_set_internal_parameters fs ms xs).2.1
        (rkfehlberg_set_internal_parameters fs ms xs).2.2 =
      (ms.getD (dt / 1000), xs.getD dt, fs.getD dt)) ∧
    (ms.getD (dt / 1000) ≤
        middle (h * s) (ms.getD (dt / 1000)) (xs.getD dt) ∧
      middle (h * s) (ms.getD (dt / 1000)) (xs.getD dt) ≤ xs.getD dt) ∧
    (∀ (t : List ℚ), adaptive_set_internal_parameters t none none none =
      (t.getD 1 0 - t.getD 0 0,
       1 / 10 * ((gridSteps t).min?.getD 0),
       10 * ((gridSteps t).max?.getD 0))) := by
  exact ⟨rfl, middle_bounds _ _ _ hb, fun t => rfl⟩

/-- Witness for C8: with nothing supplied and a caller interval `dt = 1`, the
effective RKFehlberg step parameters are `(1/1000, 1, 1)` and the clamp keeps
`h*s = 6` inside `[1/1000, 1]`. -/
theorem rkfehlberg_step_size_defaults_witness :
    ((1 : ℚ) / 1000 ≤ 1) ∧
    (rkfehlberg_step_params 1
        (rkfehlberg_set_internal_parameters none none none).1
        (rkfehlberg_set_internal_parameters none none none).2.1
        (rkfehlberg_set_internal_parameters none none none).2.2 =
      ((1 : ℚ) / 1000, 1, 1)) ∧
    ((1 : ℚ) / 1000 ≤ middle ((2 : ℚ) * 3) (1 / 1000) 1 ∧
      middle ((2 : ℚ) * 3) (1 / 1000) 1 ≤ 1) := by
  have hb : ((1 : ℚ) / 1000) ≤ 1 := by norm_num
  have h := rkfehlberg_step_size_defaults 1 2 3 none none none hb
  exact ⟨hb, h.1, h.2.1⟩

/-- Counterexample to C8 as stated: on the caller grid `[0, 1, 3]` with no
step parameters supplied, the Adaptive defaults would be
`(first_step, min_step, max_step) = (1, 1/10, 20)`, but the embedded-pair
controller leaves the parameters unset and its `advance` uses
`min_step = dt/1000 = 1/1000 ≠ 1/10` on the first interval. -/
theorem rkfehlberg_ignores_adaptive_defaults :
    rkfehlberg_set_internal_parameters none none none =
      (none, none, none) ∧
    rkfehlberg_step_params 1 none none none = (1 / 1000, 1, 1) ∧
    adaptive_set_internal_parameters [0, 1, 3] none none none =
      (1, 1 / 10, 20) ∧
    ((1 : ℚ) / 1000) ≠ 1 / 10 := by
  refine ⟨rfl, rfl, ?_, by norm_num⟩
  norm_num [adaptive_set_internal_parameters, gridSteps, List.min?,
    List.max?, List.foldl, min_def, max_def]

section ImplicitLemmas

/-- Running the inner iteration from the k-th iterate for `fuel` further
iterations reaches the (k+fuel)-th iterate, provided the stopping test fails
throughout. -/
theorem implicit_loop_run (step : ℚ → ℚ) (un r eps u0 : ℚ) :
    ∀ (fuel k : Nat) (err : ℚ), (0 < fuel → err > eps) →
      (∀ j, k ≤ j → j + 1 < k + fuel →
        |step (implicit_iterSeq step un r u0 j) -
          implicit_iterSeq step un r u0 j| > eps) →
      implicit_loop step un r eps fuel (implicit_iterSeq step un r u0 k) err =
        implicit_iterSeq step un r u0 (k + fuel) := by
  intro fuel
  induction fuel with
  | zero => intro k err _ _; simp [implicit_loop]
  | succ fuel ih =>
    intro k err h1 h2
    have herr : err > eps := h1 (Nat.succ_pos fuel)
    rw [implicit_loop, if_pos herr]
    have hnext :
        r * step (implicit_iterSeq step un r u0 k) + (1 - r) * un =
          implicit_iterSeq step un r u0 (k + 1) := rfl
    rw [hnext]
    have := ih (k + 1)
      (|step (implicit_iterSeq step un r u0 k) - implicit_iterSeq step un r u0 k|)
      (fun hf => h2 k (le_refl k) (by omega))
      (fun j hj hj2 => h2 j (by omega) (by omega))
    rw [this]
    congr 1
    omega

end ImplicitLemmas

/-- Claim C5 (amended).  The inner nonlinear iteration starts from the
forward-Euler predictor and, as long as the update error stays above
`eps_iter`, produces exactly the sequence
`u_(k+1) = r*step(u_k) + (1-r)*u[n]` — the relaxation blend is taken with the
previous *time-step* value `u[n]`, not with the previous trial guess; with
`r = 1` the iteration is the undamped `u_(k+1) = step(u_k)`.  The loop runs at
most `max_iter` iterations and returns its current iterate unchanged as soon
as the entering error is at or below `eps_iter`. -/
theorem solverImplicit_advance_iterates (step : ℚ → ℚ) (f : ℚ → ℚ → ℚ)
    (un tn tnew r eps : ℚ) (max_iter : Nat)
    (h30 : eps < (10 : ℚ) ^ (30 : Nat))
    (hstall : ∀ j, j + 1 < max_iter →
      |step (implicit_iterSeq step un r (un + (tnew - tn) * f un tn) j) -
        implicit_iterSeq step un r (un + (tnew - tn) * f un tn) j| > eps) :
    solverImplicit_advance step f un tn tnew r eps max_iter =
      implicit_iterSeq step un r (un + (tnew - tn) * f un tn) max_iter ∧
    (r = 1 → ∀ (k : Nat) (u0 : ℚ),
      implicit_iterSeq step un r u0 (k + 1) =
        step (implicit_iterSeq step un r u0 k)) ∧
    (∀ (fuel : Nat) (u err : ℚ), ¬(err > eps) →
      implicit_loop step un r eps fuel u err = u) := by
  refine ⟨?_, ?_, ?_⟩
  · have h := implicit_loop_run step un r eps (un + (tnew - tn) * f un tn)
      max_iter 0 ((10 : ℚ) ^ (30 : Nat)) (fun _ => h30)
      (fun j hj hj2 => hstall j (by omega))
    simpa [solverImplicit_advance, implicit_iterSeq] using h
  · intro hr k u0
    simp [implicit_iterSeq, hr]
  · intro fuel u err herr
    cases fuel with
    | zero => simp [implicit_loop]
    | succ fuel => rw [implicit_loop, if_neg herr]

/-- Witness for C5: an undamped-looking concrete run with `r = 1/2`,
`max_iter = 1`, `eps = 0`: the single iteration blends against `u[n] = 0`. -/
theorem solverImplicit_advance_iterates_witness :
    ((0 : ℚ) < (10 : ℚ) ^ (30 : Nat)) ∧
    solverImplicit_advance (fun u => u + 1) (fun _ _ => 1) 0 0 1 (1 / 2) 0 1 =
      implicit_iterSeq (fun u => u + 1) 0 (1 / 2)
        (0 + (1 - 0) * (fun _ _ => (1 : ℚ)) 0 0) 1 :=
  ⟨by positivity,
   (solverImplicit_advance_iterates (fun u => u + 1) (fun _ _ => 1)
     0 0 1 (1 / 2) 0 1 (by positivity)
     (fun j hj => absurd hj (by omega))).1⟩

/-- Counterexample to C5 as stated: with `f ≡ 1`, `u[n] = 0`, `t[n] = 0`,
`t[n+1] = 1`, relaxation `r = 1/2`, `eps_iter = 0` and a single iteration of
the Backward-Euler Picard update, the code blends with `u[n]` and returns
`1/2`, while the spec's blend with the previous trial guess returns `1`. -/
theorem solverImplicit_relaxation_blend_differs :
    solverImplicit_advance
        (backwardEuler_Picard_update (fun _ _ => 1) 0 0 1) (fun _ _ => 1)
        0 0 1 (1 / 2) 0 1 = 1 / 2 ∧
    solverImplicit_advance_specClaim
        (backwardEuler_Picard_update (fun _ _ => 1) 0 0 1) (fun _ _ => 1)
        0 0 1 (1 / 2) 0 1 = 1 ∧
    ((1 : ℚ) / 2) ≠ 1 := by
  have hpos : ((0 : ℚ) < (10 : ℚ) ^ (30 : Nat)) := by positivity
  refine ⟨?_, ?_, by norm_num⟩
  · rw [solverImplicit_advance, implicit_loop, if_pos hpos, implicit_loop]
    norm_num [backwardEuler_Picard_update]
  · rw [solverImplicit_advance_specClaim, implicit_loop_specClaim,
      if_pos hpos, implicit_loop_specClaim]
    norm_num [backwardEuler_Picard_update]

/-- Claim C7 (amended).  After every internal substep (accepted or not) the
working step is updated as follows: the rescale factor is
`(tolerance/(2*error))^(1/4)` — with the factor 2 in the denominator — and is
clamped by `middle` into `[0.1, 4.0]`; the rescaled step `h*s` is clamped
into `[min_step, max_step]`; the result is finally capped at the remaining
distance to the caller's target time (a zero error having been floored to
`1e-16` before the ratio is formed). -/
theorem rkf_new_h_clamped (rtol atol u_new error h min_step max_step
    remaining : ℝ) (hms : min_step ≤ max_step) :
    ((1 : ℝ) / 10 ≤ middle (((rtol * |u_new| + atol) /
        (2 * (if error = 0 then 1 / 10 ^ 16 else error))) ^ ((1 : ℝ) / 4))
        (1 / 10) 4 ∧
      middle (((rtol * |u_new| + atol) /
        (2 * (if error = 0 then 1 / 10 ^ 16 else error))) ^ ((1 : ℝ) / 4))
        (1 / 10) 4 ≤ 4) ∧
    (min_step ≤ middle (h * middle (((rtol * |u_new| + atol) /
        (2 * (if error = 0 then 1 / 10 ^ 16 else error))) ^ ((1 : ℝ) / 4))
        (1 / 10) 4) min_step max_step ∧
      middle (h * middle (((rtol * |u_new| + atol) /
        (2 * (if error = 0 then 1 / 10 ^ 16 else error))) ^ ((1 : ℝ) / 4))
        (1 / 10) 4) min_step max_step ≤ max_step) ∧
    rkf_new_h rtol atol u_new error h min_step max_step remaining =
      min (middle (h * middle (((rtol * |u_new| + atol) /
        (2 * (if error = 0 then 1 / 10 ^ 16 else error))) ^ ((1 : ℝ) / 4))
        (1 / 10) 4) min_step max_step) remaining ∧
    rkf_new_h rtol atol u_new error h min_step max_step remaining ≤
      remaining := by
  refine ⟨middle_bounds _ _ _ (by norm_num), middle_bounds _ _ _ hms,
    rfl, ?_⟩
  exact min_le_right _ _

/-- Witness for C7: at `rtol = 0`, `atol = 2`, `u_new = 5`, `error = 1`,
`h = 1`, `min_step = 1/10`, `max_step = 4`, `remaining = 10` the update never
passes the remaining distance to the target time. -/
theorem rkf_new_h_clamped_witness :
    ((1 : ℝ) / 10 ≤ 4) ∧
    rkf_new_h 0 2 5 1 1 (1 / 10) 4 10 ≤ 10 :=
  ⟨by norm_num,
   (rkf_new_h_clamped 0 2 5 1 1 (1 / 10) 4 10 (by norm_num)).2.2.2⟩

/-- Counterexample to C7 as stated: at tolerance 2 and error 1 the code's
factor is `(2/(2*1))^(1/4) = 1` and the updated step is `1`, while the spec's
factor `(2/1)^(1/4) = 2^(1/4) > 1` gives the updated step `2^(1/4) ≠ 1`. -/
theorem rkf_new_h_factor_differs :
    rkf_new_h 0 2 5 1 1 (1 / 10) 4 10 = 1 ∧
    rkf_new_h_specClaim 0 2 5 1 1 (1 / 10) 4 10 = 2 ^ ((1 : ℝ) / 4) ∧
    (2 : ℝ) ^ ((1 : ℝ) / 4) ≠ 1 := by
  have h1 : (1 : ℝ) < 2 ^ ((1 : ℝ) / 4) :=
    (Real.one_lt_rpow_iff_of_pos (by norm_num)).mpr
      (Or.inl ⟨by norm_num, by norm_num⟩)
  have h2 : (2 : ℝ) ^ ((1 : ℝ) / 4) ≤ 2 := by
    calc (2 : ℝ) ^ ((1 : ℝ) / 4) ≤ 2 ^ (1 : ℝ) :=
          Real.rpow_le_rpow_of_exponent_le (by norm_num) (by norm_num)
    _ = 2 := Real.rpow_one 2
  refine ⟨?_, ?_, ne_of_gt h1⟩
  · unfold rkf_new_h
    have e0 : ((1 : ℝ) = 0) = False := by norm_num
    have etol : ((0 : ℝ) * |(5 : ℝ)| + 2) = 2 := by norm_num
    simp only [e0, if_false, etol]
    have eratio : ((2 : ℝ) / (2 * 1)) = 1 := by norm_num
    have hsm : middle (1 : ℝ) (1 / 10) 4 = 1 :=
      middle_of_between (by norm_num) (by norm_num)
    rw [eratio, Real.one_rpow, hsm, one_mul, hsm]
    norm_num
  · unfold rkf_new_h_specClaim
    have e0 : ((1 : ℝ) = 0) = False := by norm_num
    have etol : ((0 : ℝ) * |(5 : ℝ)| + 2) = 2 := by norm_num
    simp only [e0, if_false, etol]
    have eratio : ((2 : ℝ) / 1) = 2 := by norm_num
    have hs1 : (1 : ℝ) / 10 ≤ 2 ^ ((1 : ℝ) / 4) :=
      le_of_lt (lt_of_lt_of_le (by norm_num) h1.le)
    have hs2 : (2 : ℝ) ^ ((1 : ℝ) / 4) ≤ 4 := le_trans h2 (by norm_num)
    have hsm : middle ((2 : ℝ) ^ ((1 : ℝ) / 4)) (1 / 10) 4 =
        2 ^ ((1 : ℝ) / 4) := middle_of_between hs1 hs2
    rw [eratio, hsm, one_mul, hsm]
    exact min_eq_left (le_trans h2 (by norm_num))

section GridLemmas

/-- The adjacent-pairs check agrees with `List.Pairwise` for a transitive
relation. -/
theorem chainB_iff_pairwise {R : ℚ → ℚ → Prop} [DecidableRel R]
    (htrans : ∀ a b c : ℚ, R a b → R b c → R a c) :
    ∀ (l : List ℚ), chainB (fun a b => decide (R a b)) l = true ↔
      l.Pairwise R := by
  intro l
  induction l with
  | nil => simp [chainB]
  | cons a l ih =>
    cases l with
    | nil => simp [chainB]
    | cons b m =>
      rw [chainB]
      simp only [Bool.and_eq_true, decide_eq_true_eq]
      rw [ih]
      constructor
      · rintro ⟨hab, hp⟩
        rw [List.pairwise_cons]
        refine ⟨?_, hp⟩
        intro x hx
        rcases List.mem_cons.mp hx with rfl | hx
        · exact hab
        · exact htrans a b x hab ((List.pairwise_cons.mp hp).1 x hx)
      · intro hp
        rw [List.pairwise_cons] at hp
        exact ⟨hp.1 b (List.mem_cons_self b m), hp.2⟩

/-- `getLast!` agrees with `getLast` on nonempty lists. -/
theorem getLast!_eq_getLast (t : List ℚ) (ht : t ≠ []) :
    t.getLast! = t.getLast ht := by
  cases t with
  | nil => exact absurd rfl ht
  | cons a l => rfl

/-- A reflexive pairwise relation holds between the first and last element of
a nonempty list. -/
theorem head!_rel_getLast! (R : ℚ → ℚ → Prop) (hrefl : ∀ a : ℚ, R a a)
    (t : List ℚ) (ht : t ≠ []) (hp : t.Pairwise R) :
    R t.head! t.getLast! := by
  cases t with
  | nil => exact absurd rfl ht
  | cons a l =>
    rw [getLast!_eq_getLast (a :: l) (by simp)]
    have hmem := List.getLast_mem (l := a :: l) (by simp)
    rcases List.mem_cons.mp hmem with heq | hmem2
    · rw [heq]
      exact hrefl a
    · exact (List.pairwise_cons.mp hp).1 _ hmem2

/-- A descending-sorted list whose first element is at most its last element
is constant, hence also ascending-sorted. -/
theorem pairwise_le_of_ge_of_head_le (t : List ℚ) (ht : t ≠ [])
    (hp : t.Pairwise (· ≥ ·)) (hle : t.head! ≤ t.getLast!) :
    t.Pairwise (· ≤ ·) := by
  have hlen : 0 < t.length := List.length_pos.mpr ht
  have h0 : t.head! = t[0] := by
    cases t with
    | nil => exact absurd rfl ht
    | cons a l => rfl
  have hL : t.getLast! = t[t.length - 1] := by
    rw [getLast!_eq_getLast t ht, List.getLast_eq_getElem]
  rw [h0, hL] at hle
  rw [List.pairwise_iff_getElem] at hp ⊢
  intro i j hi hj hij
  have hi0 : t[i] ≤ t[0] := by
    rcases Nat.eq_zero_or_pos i with rfl | hipos
    · exact le_refl _
    · exact hp 0 i hlen hi hipos
  have hjL : t[t.length - 1] ≤ t[j] := by
    by_cases hjl : j = t.length - 1
    · subst hjl
      exact le_refl _
    · exact hp j (t.length - 1) hj (by omega) (by omega)
  exact le_trans hi0 (le_trans hle hjL)

/-- A list equals its stable ascending sort exactly when it is
ascending-sorted. -/
theorem pySortAsc_eq_self_iff (t : List ℚ) :
    pySortAsc t = t ↔ t.Pairwise (· ≤ ·) := by
  constructor
  · intro h
    have hs := @List.sorted_mergeSort ℚ (fun a b : ℚ => decide (a ≤ b))
      (fun a b c hab hbc => by
        simp only [decide_eq_true_eq] at *
        exact le_trans hab hbc)
      (fun a b => by
        simp only [Bool.or_eq_true, decide_eq_true_eq]
        exact le_total a b) t
    rw [pySortAsc] at h
    rw [h] at hs
    exact hs.imp (by simp)
  · intro hp
    exact List.mergeSort_of_sorted (hp.imp (by simp))

/-- A list equals its stable descending sort exactly when it is
descending-sorted. -/
theorem pySortDesc_eq_self_iff (t : List ℚ) :
    pySortDesc t = t ↔ t.Pairwise (· ≥ ·) := by
  constructor
  · intro h
    have hs := @List.sorted_mergeSort ℚ (fun a b : ℚ => decide (b ≤ a))
      (fun a b c hab hbc => by
        simp only [decide_eq_true_eq] at *
        exact le_trans hbc hab)
      (fun a b => by
        simp only [Bool.or_eq_true, decide_eq_true_eq]
        exact le_total b a) t
    rw [pySortDesc] at h
    rw [h] at hs
    exact hs.imp (by simp [ge_iff_le])
  · intro hp
    exact List.mergeSort_of_sorted (hp.imp (by simp [ge_iff_le]))

/-- The grid check of `Solver.validate_data` passes exactly on the lists that
are sorted (non-strictly) in one direction. -/
theorem validate_data_ok_iff_sorted (t : List ℚ) (ht : t ≠ []) :
    solver_validate_data t = .ok () ↔
      (t.Pairwise (· ≤ ·) ∨ t.Pairwise (· ≥ ·)) := by
  constructor
  · intro hok
    by_cases hrev : t.head! > t.getLast!
    · have hb : decide (t.head! > t.getLast!) = true := decide_eq_true hrev
      simp only [solver_validate_data, hb, if_true] at hok
      by_cases heq : t = pySortDesc t
      · exact Or.inr ((pySortDesc_eq_self_iff t).mp heq.symm)
      · simp [heq] at hok
    · have hb : decide (t.head! > t.getLast!) = false :=
        decide_eq_false hrev
      simp only [solver_validate_data, hb, Bool.false_eq_true, if_false]
        at hok
      by_cases heq : t = pySortAsc t
      · exact Or.inl ((pySortAsc_eq_self_iff t).mp heq.symm)
      · simp [heq] at hok
  · rintro (hp | hp)
    · have heq : pySortAsc t = t := (pySortAsc_eq_self_iff t).mpr hp
      have hrev : ¬(t.head! > t.getLast!) :=
        not_lt.mpr (head!_rel_getLast! (· ≤ ·) le_refl t ht hp)
      have hb : decide (t.head! > t.getLast!) = false :=
        decide_eq_false hrev
      simp [solver_validate_data, hb, heq]
    · by_cases hrev : t.head! > t.getLast!
      · have heq : pySortDesc t = t := (pySortDesc_eq_self_iff t).mpr hp
        have hb : decide (t.head! > t.getLast!) = true := decide_eq_true hrev
        simp [solver_validate_data, hb, heq]
      · have hle : t.head! ≤ t.getLast! := not_lt.mp hrev
        have hp2 : t.Pairwise (· ≤ ·) :=
          pairwise_le_of_ge_of_head_le t ht hp hle
        have heq : pySortAsc t = t := (pySortAsc_eq_self_iff t).mpr hp2
        have hb : decide (t.head! > t.getLast!) = false :=
          decide_eq_false hrev
        simp [solver_validate_data, hb, heq]

end GridLemmas

/-- Claim C3 (amended).  The grid validation enforces only non-strict
monotonicity: it passes exactly on the grids that are sorted ascending or
sorted descending — including grids with repeated values and single-point
grids — and raises ValueError on everything else; in particular every
strictly monotonic grid passes. -/
theorem solver_validate_data_characterization (t : List ℚ) (ht : t ≠ []) :
    (solver_validate_data t = .ok () ↔
      (t.Pairwise (· ≤ ·) ∨ t.Pairwise (· ≥ ·))) ∧
    (strictlyMonotonic t = true → solver_validate_data t = .ok ()) := by
  refine ⟨validate_data_ok_iff_sorted t ht, ?_⟩
  intro hsm
  unfold strictlyMonotonic at hsm
  simp only [Bool.and_eq_true, Bool.or_eq_true, decide_eq_true_eq] at hsm
  obtain ⟨-, hchain⟩ := hsm
  rcases hchain with hc | hc
  · have hp : t.Pairwise (· < ·) :=
      (chainB_iff_pairwise (R := fun a b => a < b)
        (fun a b c hab hbc => lt_trans hab hbc) t).mp hc
    exact (validate_data_ok_iff_sorted t ht).mpr
      (Or.inl (hp.imp le_of_lt))
  · have hp : t.Pairwise (· > ·) :=
      (chainB_iff_pairwise (R := fun a b => a > b)
        (fun a b c hab hbc => lt_trans hbc hab) t).mp hc
    exact (validate_data_ok_iff_sorted t ht).mpr
      (Or.inr (hp.imp le_of_lt))

/-- Witness for C3: the strictly ascending two-point grid `[0, 1]` passes the
validation. -/
theorem solver_validate_data_characterization_witness :
    (([0, 1] : List ℚ) ≠ []) ∧ strictlyMonotonic [0, 1] = true ∧
    solver_validate_data [0, 1] = .ok () :=
  ⟨by simp, by decide,
   (solver_validate_data_characterization [0, 1] (by simp)).2 (by decide)⟩

/-- Counterexample to C3 as stated: the grid `[0, 1, 1, 2]` has a repeated
value (it is not strictly monotonic), and the single-point grid `[5]` has
fewer than 2 points, yet both pass the validation instead of failing with the
invalid-grid error. -/
theorem solver_validate_data_accepts_nonstrict :
    strictlyMonotonic [0, 1, 1, 2] = false ∧
    solver_validate_data [0, 1, 1, 2] = .ok () ∧
    strictlyMonotonic [5] = false ∧
    solver_validate_data [5] = .ok () := by
  refine ⟨by decide, ?_, by decide, ?_⟩
  · refine (validate_data_ok_iff_sorted [0, 1, 1, 2] (by simp)).mpr
      (Or.inl ?_)
    norm_num [List.pairwise_cons]
  · exact (validate_data_ok_iff_sorted [5] (by simp)).mpr (Or.inl (by simp))

section TimeLoopLemmas

/-- Every buffer in the step sequence keeps the grid's length. -/
theorem uSeq_length (adv : List ℚ → List ℚ → Nat → ℚ)
    (t : List ℚ) (U0 : ℚ) :
    ∀ k, (uSeq adv t U0 k).length = t.length := by
  intro k
  induction k with
  | zero => simp [uSeq, solver_u_init]
  | succ k ih => simp [uSeq, ih]

/-- The two arrays returned by the time loop always have equal length. -/
theorem timeLoop_length_eq (adv : List ℚ → List ℚ → Nat → ℚ)
    (term : List ℚ → List ℚ → Nat → Bool) (t : List ℚ) :
    ∀ (fuel n : Nat) (u : List ℚ), u.length = t.length →
      ((timeLoop adv term t fuel n u).1).length =
        ((timeLoop adv term t fuel n u).2).length := by
  intro fuel
  induction fuel with
  | zero => intro n u h; simpa [timeLoop] using h
  | succ fuel ih =>
    intro n u h
    cases hterm : term (u.set (n + 1) (adv u t n)) t (n + 1) with
    | true =>
      simp [timeLoop, hterm, List.length_take, List.length_set, h]
    | false =>
      rw [timeLoop]
      simp only [hterm, Bool.false_eq_true, if_false]
      exact ih (n + 1) _ (by simp [List.length_set, h])

/-- Entry 0 of the solution buffer survives the whole time loop, including
the truncation on early termination. -/
theorem timeLoop_getElem0 (adv : List ℚ → List ℚ → Nat → ℚ)
    (term : List ℚ → List ℚ → Nat → Bool) (t : List ℚ) (U0 : ℚ) :
    ∀ (fuel n : Nat) (u : List ℚ), u[0]? = some U0 →
      ((timeLoop adv term t fuel n u).1)[0]? = some U0 := by
  intro fuel
  induction fuel with
  | zero => intro n u h; simpa [timeLoop] using h
  | succ fuel ih =>
    intro n u h
    have hset : (u.set (n + 1) (adv u t n))[0]? = some U0 := by
      rw [List.getElem?_set_ne (by omega)]
      exact h
    cases hterm : term (u.set (n + 1) (adv u t n)) t (n + 1) with
    | true =>
      rw [timeLoop]
      simp only [hterm, if_true]
      simp [List.getElem?_take, hset]
    | false =>
      rw [timeLoop]
      simp only [hterm, Bool.false_eq_true, if_false]
      exact ih (n + 1) _ hset

/-- When the termination predicate never fires during `fuel` steps starting
at step `n`, the loop performs all of them and returns the untruncated
buffers. -/
theorem timeLoop_run_noterm (adv : List ℚ → List ℚ → Nat → ℚ)
    (term : List ℚ → List ℚ → Nat → Bool) (t : List ℚ) (U0 : ℚ) :
    ∀ (fuel n : Nat),
      (∀ k, n ≤ k → k < n + fuel →
        term (uSeq adv t U0 (k + 1)) t (k + 1) = false) →
      timeLoop adv term t fuel n (uSeq adv t U0 n) =
        (uSeq adv t U0 (n + fuel), t) := by
  intro fuel
  induction fuel with
  | zero => intro n _; simp [timeLoop]
  | succ fuel ih =>
    intro n h
    have hu : (uSeq adv t U0 n).set (n + 1) (adv (uSeq adv t U0 n) t n) =
        uSeq adv t U0 (n + 1) := rfl
    simp only [timeLoop]
    rw [hu, h n (le_refl n) (by omega)]
    simp only [Bool.false_eq_true, if_false]
    rw [ih (n + 1) (fun k hk1 hk2 => h k (by omega) (by omega))]
    congr 2
    omega

/-- When the termination predicate first fires after computing step
`n + j + 1`, the loop truncates both arrays to `n + j + 2` entries and
stops. -/
theorem timeLoop_run_term (adv : List ℚ → List ℚ → Nat → ℚ)
    (term : List ℚ → List ℚ → Nat → Bool) (t : List ℚ) (U0 : ℚ) :
    ∀ (j fuel n : Nat), j < fuel →
      (∀ k, n ≤ k → k < n + j →
        term (uSeq adv t U0 (k + 1)) t (k + 1) = false) →
      term (uSeq adv t U0 (n + j + 1)) t (n + j + 1) = true →
      timeLoop adv term t fuel n (uSeq adv t U0 n) =
        ((uSeq adv t U0 (n + j + 1)).take (n + j + 2),
          t.take (n + j + 2)) := by
  intro j
  induction j with
  | zero =>
    intro fuel n hj _ htrue
    cases fuel with
    | zero => omega
    | succ fuel =>
      have hu : (uSeq adv t U0 n).set (n + 1) (adv (uSeq adv t U0 n) t n) =
          uSeq adv t U0 (n + 1) := rfl
      have htrue2 : term (uSeq adv t U0 (n + 1)) t (n + 1) = true := by
        simpa using htrue
      simp only [timeLoop]
      rw [hu, htrue2]
      simp only [if_true]
  | succ j ih =>
    intro fuel n hj hfalse htrue
    cases fuel with
    | zero => omega
    | succ fuel =>
      have hu : (uSeq adv t U0 n).set (n + 1) (adv (uSeq adv t U0 n) t n) =
          uSeq adv t U0 (n + 1) := rfl
      have e1 : n + 1 + j + 1 = n + (j + 1) + 1 := by omega
      have e2 : n + 1 + j + 2 = n + (j + 1) + 2 := by omega
      have htrue2 : term (uSeq adv t U0 (n + 1 + j + 1)) t (n + 1 + j + 1) =
          true := by rw [e1]; exact htrue
      have hrec := ih fuel (n + 1) (by omega)
        (fun k hk1 hk2 => hfalse k (by omega) (by omega)) htrue2
      rw [e1, e2] at hrec
      simp only [timeLoop]
      rw [hu, hfalse n (le_refl n) (by omega)]
      simp only [Bool.false_eq_true, if_false]
      exact hrec

end TimeLoopLemmas

/-- Claim C2.  On a grid of at least one point, `Solver.solve` returns
`u` and `t` of equal length with `u[0] = U0`; if the termination predicate
first returns true after computing step `n+1` (with `n` below the interval
count) both returned arrays are the first `n+2` entries of the buffers and
no further step is taken; if it never returns true, the loop performs all
`N = len(t)-1` steps and both arrays keep the full grid length. -/
theorem solver_solve_truncation (adv : List ℚ → List ℚ → Nat → ℚ)
    (term : List ℚ → List ℚ → Nat → Bool) (t : List ℚ) (U0 : ℚ)
    (ht : 1 ≤ t.length) :
    ((solver_solve adv term t U0).1.length =
      (solver_solve adv term t U0).2.length) ∧
    ((solver_solve adv term t U0).1[0]? = some U0) ∧
    (∀ n, n < t.length - 1 →
      (∀ k, k < n → term (uSeq adv t U0 (k + 1)) t (k + 1) = false) →
      term (uSeq adv t U0 (n + 1)) t (n + 1) = true →
      solver_solve adv term t U0 =
        ((uSeq adv t U0 (n + 1)).take (n + 2), t.take (n + 2)) ∧
      (solver_solve adv term t U0).1.length = n + 2) ∧
    ((∀ k, k < t.length - 1 →
        term (uSeq adv t U0 (k + 1)) t (k + 1) = false) →
      solver_solve adv term t U0 = (uSeq adv t U0 (t.length - 1), t) ∧
      (solver_solve adv term t U0).1.length = t.length) := by
  have hinit : solver_u_init t.length U0 = uSeq adv t U0 0 := rfl
  refine ⟨?_, ?_, ?_, ?_⟩
  · exact timeLoop_length_eq adv term t (t.length - 1) 0 _
      (by simp [solver_u_init])
  · refine timeLoop_getElem0 adv term t U0 (t.length - 1) 0 _ ?_
    unfold solver_u_init
    rw [List.getElem?_set_self (by simpa using ht)]
  · intro n hn hmin htrue
    have hrun := timeLoop_run_term adv term t U0 n (t.length - 1) 0
      (by omega) (fun k hk1 hk2 => hmin k (by omega)) (by simpa using htrue)
    simp only [Nat.zero_add] at hrun
    have hmain : solver_solve adv term t U0 =
        ((uSeq adv t U0 (n + 1)).take (n + 2), t.take (n + 2)) := by
      unfold solver_solve
      rw [hinit]
      exact hrun
    refine ⟨hmain, ?_⟩
    rw [hmain]
    simp only [List.length_take, uSeq_length]
    omega
  · intro hnever
    have hrun := timeLoop_run_noterm adv term t U0 (t.length - 1) 0
      (fun k hk1 hk2 => hnever k (by omega))
    simp only [Nat.zero_add] at hrun
    have hmain : solver_solve adv term t U0 =
        (uSeq adv t U0 (t.length - 1), t) := by
      unfold solver_solve
      rw [hinit]
      exact hrun
    refine ⟨hmain, ?_⟩
    rw [hmain]
    exact uSeq_length adv t U0 (t.length - 1)

/-- Witness for C2: on the grid `[0, 1, 2]` with `U0 = 5`, a constant
advancer returning 2 and the predicate `u[step] >= 2`, termination fires
after the first step and both arrays are truncated to 2 entries. -/
theorem solver_solve_truncation_witness :
    (1 ≤ ([0, 1, 2] : List ℚ).length) ∧
    ((0 : Nat) < ([0, 1, 2] : List ℚ).length - 1) ∧
    ((fun (u : List ℚ) (_ : List ℚ) (k : Nat) => decide ((2 : ℚ) ≤ u.getD k 0))
        (uSeq (fun _ _ _ => 2) [0, 1, 2] 5 1) [0, 1, 2] 1 = true) ∧
    (solver_solve (fun _ _ _ => 2)
        (fun u _ k => decide ((2 : ℚ) ≤ u.getD k 0)) [0, 1, 2] 5 =
      ((uSeq (fun _ _ _ => 2) [0, 1, 2] 5 1).take 2,
        ([0, 1, 2] : List ℚ).take 2) ∧
      (solver_solve (fun _ _ _ => 2)
        (fun u _ k => decide ((2 : ℚ) ≤ u.getD k 0)) [0, 1, 2] 5).1.length =
        2) :=
  ⟨by decide, by decide, by decide,
   (solver_solve_truncation (fun _ _ _ => 2)
     (fun u _ k => decide ((2 : ℚ) ≤ u.getD k 0)) [0, 1, 2] 5
     (by decide)).2.2.1 0 (by decide)
     (fun k hk => absurd hk (by omega)) (by decide)⟩
